import Mathlib

/-!
Shallow embedding of the littlepartytime-sdk dev-kit core:
room state and its operations (packages/dev-kit/src/server/game-room.ts),
the socket-server event handlers (packages/dev-kit/src/server/socket-server.ts),
the sandbox guard (packages/dev-kit/src/server/sandbox-guard.ts),
the number-guess example engine (examples/number-guess/src/engine.ts) and
the SDK test doubles (packages/sdk/src/testing).
Each definition is translated from the corresponding TypeScript source.
-/

/-- Room phase, from the GameRoom interface in game-room.ts:
one of lobby, ready, playing, ended. -/
inductive Phase where
  | lobby
  | ready
  | playing
  | ended
deriving DecidableEq, Repr

/-- Player record from game-room.ts (id, nickname, avatarUrl, isHost,
socketId, ready). -/
structure Player where
  id : String
  nickname : String
  avatarUrl : Option String
  isHost : Bool
  socketId : String
  ready : Bool
deriving DecidableEq, Repr

/-- GameRoom record from game-room.ts. The opaque engine-state blob is a
type parameter S; the TypeScript field state has type any or null, modelled
as Option S with none standing for null. -/
structure GameRoom (S : Type) where
  players : List Player
  state : Option S
  phase : Phase
  gameId : String
deriving DecidableEq, Repr

/-- Public player projection built by startGame in game-room.ts:
players.map to id, nickname, avatarUrl, isHost. -/
structure PubPlayer where
  id : String
  nickname : String
  avatarUrl : Option String
  isHost : Bool
deriving DecidableEq, Repr

/-- Engine-contract functions from engine-loader.ts that the room and
socket-server logic consume. The room code never looks inside the state S.
getResult and getPlayerView never touch room state, so they are not needed
for the room-level model. -/
structure GameEngine (S : Type) where
  init : List PubPlayer → S
  handleAction : S → String → String → S
  isGameOver : S → Bool

/-- createRoom from game-room.ts. -/
def createRoom (S : Type) (gameId : String) : GameRoom S :=
  { players := [], state := none, phase := Phase.lobby, gameId := gameId }

/-- addPlayer from game-room.ts: the new seat is host iff the roster was
empty; the generated id (Date.now plus randomness in the source) is passed
in as newId; the seat is appended to the roster. -/
def addPlayer (room : GameRoom S) (newId socketId nickname : String) :
    GameRoom S × Player :=
  let isHost := room.players.length == 0
  let player : Player :=
    { id := newId, nickname := nickname, avatarUrl := none,
      isHost := isHost, socketId := socketId, ready := false }
  ({ room with players := room.players ++ [player] }, player)

/-- Helper for removePlayer: findIndex plus splice, returning the removed
player and the remaining roster in unchanged order. -/
def removeFirst : List Player → String → Option (Player × List Player)
  | [], _ => none
  | p :: rest, sid =>
    if p.socketId = sid then some (p, rest)
    else
      match removeFirst rest sid with
      | none => none
      | some (r, rest') => some (r, p :: rest')

/-- Host promotion in removePlayer: room.players[0].isHost = true. -/
def promoteHost : List Player → List Player
  | [] => []
  | p :: rest => { p with isHost := true } :: rest

/-- removePlayer from game-room.ts: removes the first seat whose socketId
matches; if the removed seat was host and seats remain, the new first seat
becomes host. Returns the updated room and the removed player (null when
no seat matched). -/
def removePlayer (room : GameRoom S) (socketId : String) :
    GameRoom S × Option Player :=
  match removeFirst room.players socketId with
  | none => (room, none)
  | some (removed, remaining) =>
    let players' :=
      if removed.isHost && decide (0 < remaining.length) then promoteHost remaining
      else remaining
    ({ room with players := players' }, some removed)

/-- getPlayerBySocketId from game-room.ts. -/
def getPlayerBySocketId (room : GameRoom S) (socketId : String) : Option Player :=
  room.players.find? (fun p => p.socketId == socketId)

/-- setPlayerReady from game-room.ts. -/
def setPlayerReady (room : GameRoom S) (socketId : String) (ready : Bool) :
    GameRoom S :=
  { room with
    players := room.players.map
      (fun p => if p.socketId == socketId then { p with ready := ready } else p) }

/-- allPlayersReady from game-room.ts: at least 2 players and every player
ready. -/
def allPlayersReady (room : GameRoom S) : Bool :=
  decide (2 ≤ room.players.length) && room.players.all (fun p => p.ready)

/-- toPublic is the players.map projection at the top of startGame. -/
def toPublic (ps : List Player) : List PubPlayer :=
  ps.map (fun p =>
    { id := p.id, nickname := p.nickname, avatarUrl := p.avatarUrl,
      isHost := p.isHost })

/-- startGame from game-room.ts: state becomes engine.init(players) and
phase becomes playing, unconditionally. -/
def startGame (e : GameEngine S) (room : GameRoom S) : GameRoom S :=
  { room with
    state := some (e.init (toPublic room.players)),
    phase := Phase.playing }

/-- handleAction from game-room.ts, instrumented with a Bool recording
whether engine.handleAction was actually invoked. The source returns
immediately when room.phase is not playing or room.state is null;
otherwise it replaces room.state with the engine result and sets phase to
ended when engine.isGameOver holds on the new state. -/
def roomHandleActionT (e : GameEngine S) (room : GameRoom S)
    (playerId action : String) : GameRoom S × Bool :=
  if room.phase = Phase.playing then
    match room.state with
    | some s =>
      let s' := e.handleAction s playerId action
      ({ room with
          state := some s',
          phase := if e.isGameOver s' then Phase.ended else room.phase }, true)
    | none => (room, false)
  else (room, false)

/-- handleAction from game-room.ts (room result only). -/
def roomHandleAction (e : GameEngine S) (room : GameRoom S)
    (playerId action : String) : GameRoom S :=
  (roomHandleActionT e room playerId action).1

/-- resetRoom from game-room.ts: state null, phase lobby, all ready flags
cleared. -/
def resetRoom (room : GameRoom S) : GameRoom S :=
  { room with
    state := none,
    phase := Phase.lobby,
    players := room.players.map (fun p => { p with ready := false }) }

/-- The room operations reachable through game-room.ts, as claim C3 lists
them: add player, remove player, set ready, start game, handle action,
reset. The add operation carries the generated player id explicitly. -/
inductive RoomOp where
  | add (newId socketId nickname : String)
  | remove (socketId : String)
  | setReady (socketId : String) (r : Bool)
  | start
  | act (playerId action : String)
  | reset

/-- Apply a single room operation. -/
def applyOp (e : GameEngine S) (room : GameRoom S) : RoomOp → GameRoom S
  | RoomOp.add newId socketId nickname => (addPlayer room newId socketId nickname).1
  | RoomOp.remove socketId => (removePlayer room socketId).1
  | RoomOp.setReady socketId r => setPlayerReady room socketId r
  | RoomOp.start => startGame e room
  | RoomOp.act pid a => roomHandleAction e room pid a
  | RoomOp.reset => resetRoom room

/-- Apply a sequence of room operations in order. -/
def applyOps (e : GameEngine S) (room : GameRoom S) (ops : List RoomOp) :
    GameRoom S :=
  ops.foldl (applyOp e) room

/-- The C3 invariant: the engine-state blob is null exactly in the lobby
and ready phases. -/
def stateNullIffLobby (room : GameRoom S) : Prop :=
  room.state = none ↔ (room.phase = Phase.lobby ∨ room.phase = Phase.ready)

/-- Add/remove operation alphabet for claim C4, which quantifies over
sequences of addPlayer and removePlayer only. -/
inductive ARop where
  | add (newId socketId nickname : String)
  | remove (socketId : String)

/-- Apply one add/remove operation to a room. -/
def applyAR (room : GameRoom Unit) : ARop → GameRoom Unit
  | ARop.add newId socketId nickname => (addPlayer room newId socketId nickname).1
  | ARop.remove socketId => (removePlayer room socketId).1

/-- Apply a sequence of add/remove operations from a room. -/
def applyARs (room : GameRoom Unit) (ops : List ARop) : GameRoom Unit :=
  ops.foldl applyAR room

/-- Host invariant maintained by the roster code: the roster is empty, or
its first seat is host and no later seat is. -/
def hostInv : List Player → Prop
  | [] => True
  | p :: rest => p.isHost = true ∧ ∀ q ∈ rest, q.isHost = false

/-- The game:action handler in socket-server.ts, instrumented with a Bool
recording whether engine.handleAction ran. The handler returns early unless
room.phase is playing or ended, and otherwise delegates to the game-room
handleAction (which itself returns early unless the phase is playing and
the state non-null). -/
def socketGameAction (e : GameEngine S) (room : GameRoom S)
    (playerId action : String) : GameRoom S × Bool :=
  if room.phase = Phase.playing ∨ room.phase = Phase.ended then
    roomHandleActionT e room playerId action
  else (room, false)

/-- The game:start handler in socket-server.ts, instrumented with a Bool
recording whether startGame (hence engine.init) ran: the handler returns
early unless the issuing seat is host and allPlayersReady holds. -/
def socketGameStartT (e : GameEngine S) (room : GameRoom S)
    (socketId : String) : GameRoom S × Bool :=
  match getPlayerBySocketId room socketId with
  | none => (room, false)
  | some player =>
    if player.isHost = false then (room, false)
    else if allPlayersReady room = false then (room, false)
    else (startGame e room, true)

/-- Concrete engine over integer states used to refute claim C1: its
handleAction always returns a different state than its input. -/
def c1Engine : GameEngine Int :=
  { init := fun _ => 0,
    handleAction := fun s _ _ => s + 1,
    isGameOver := fun _ => false }

/-- Concrete room in the ended phase with a non-null engine state. -/
def c1Room : GameRoom Int :=
  { players := [{ id := "p1", nickname := "Alice", avatarUrl := none,
                  isHost := true, socketId := "s1", ready := true }],
    state := some 5,
    phase := Phase.ended,
    gameId := "dev-game" }

/-- Concrete engine for the C9 scenario: init returns the number of seats
it was given, so a restart visibly overwrites the stored state. -/
def c9Engine : GameEngine Int :=
  { init := fun ps => (ps.length : Int),
    handleAction := fun s _ _ => s,
    isGameOver := fun _ => false }

/-- Concrete room: a finished game (phase ended, state 42) whose two seats
are still flagged ready, because only resetRoom clears ready flags. -/
def c9Room : GameRoom Int :=
  { players :=
      [{ id := "p1", nickname := "Alice", avatarUrl := none,
         isHost := true, socketId := "s1", ready := true },
       { id := "p2", nickname := "Bob", avatarUrl := none,
         isHost := false, socketId := "s2", ready := true }],
    state := some 42,
    phase := Phase.ended,
    gameId := "dev-game" }

/-- The four process-wide timer primitives replaced by withTimerGuard in
sandbox-guard.ts. -/
inductive TimerPrim where
  | setTimeout
  | setInterval
  | clearTimeout
  | clearInterval
deriving DecidableEq, Repr

/-- The warning text emitted by createNoopTimer for a schedule primitive. -/
def noopMsg (name : String) : String :=
  "[Sandbox] WARNING: " ++ name ++
    "() called in engine code. This is a no-op in the platform sandbox. " ++
    "Use client-side timers + platform.send() instead."

/-- Behavior of the substituted primitives during one guarded call: each
schedule invocation returns the sentinel handle 0 and warns once per
primitive name (createNoopTimer closes over a fresh warned flag per name);
the substituted cancel primitives are pure no-ops. The two Bool arguments
are the warned flags of the setTimeout and setInterval substitutes. -/
def runNoops : List TimerPrim → Bool → Bool → List Nat × List String
  | [], _, _ => ([], [])
  | TimerPrim.setTimeout :: rest, warnedT, warnedI =>
    let r := runNoops rest true warnedI
    (0 :: r.1, (if warnedT then [] else [noopMsg "setTimeout"]) ++ r.2)
  | TimerPrim.setInterval :: rest, warnedT, warnedI =>
    let r := runNoops rest warnedT true
    (0 :: r.1, (if warnedI then [] else [noopMsg "setInterval"]) ++ r.2)
  | TimerPrim.clearTimeout :: rest, warnedT, warnedI =>
    runNoops rest warnedT warnedI
  | TimerPrim.clearInterval :: rest, warnedT, warnedI =>
    runNoops rest warnedT warnedI

/-- State of the four globalThis timer slots: true means the real
primitive is installed, false means a substitute is. -/
structure TimerGlobals where
  setTimeoutReal : Bool
  setIntervalReal : Bool
  clearTimeoutReal : Bool
  clearIntervalReal : Bool
deriving DecidableEq, Repr

/-- One engine call as seen by the guard: the sequence of timer-primitive
invocations the engine performs, and its outcome (a value, or a thrown
exception modelled as Except.error). -/
structure EngineCallBody (A : Type) where
  timerCalls : List TimerPrim
  outcome : Except String A

/-- Everything observable about one guarded call. -/
structure GuardOutcome (A : Type) where
  handles : List Nat
  advisories : List String
  globalsAfter : TimerGlobals
  result : Except String A

/-- withTimerGuard from sandbox-guard.ts: saves the four primitives,
installs the substitutes, runs the body (whose timer invocations all hit
the substitutes), and in a finally block restores the four saved
primitives before the value or exception propagates. -/
def withTimerGuard (g : TimerGlobals) (body : EngineCallBody A) :
    GuardOutcome A :=
  let orig := g
  let installed : TimerGlobals :=
    { setTimeoutReal := false, setIntervalReal := false,
      clearTimeoutReal := false, clearIntervalReal := false }
  let r := runNoops body.timerCalls false false
  let restored : TimerGlobals :=
    { installed with
      setTimeoutReal := orig.setTimeoutReal,
      setIntervalReal := orig.setIntervalReal,
      clearTimeoutReal := orig.clearTimeoutReal,
      clearIntervalReal := orig.clearIntervalReal }
  { handles := r.1, advisories := r.2, globalsAfter := restored,
    result := body.outcome }

/-- Concrete guarded call used as witness: the engine invokes setTimeout
twice and clearInterval once, then throws. -/
def c5Body : EngineCallBody Int :=
  { timerCalls := [TimerPrim.setTimeout, TimerPrim.setTimeout,
                   TimerPrim.clearInterval],
    outcome := Except.error "boom" }

/-- Model of a JavaScript runtime value as walkObject in sandbox-guard.ts
discriminates them: null, undefined, primitives, functions, the four
special object classes it tests with instanceof (opaque leaves there,
since walkObject returns immediately on them), arrays and plain objects.
Numbers are modelled as integers; walkObject never inspects numeric
values, so this loses nothing it observes. -/
inductive JsValue where
  | vNull
  | vUndefined
  | vBool (b : Bool)
  | vNum (n : Int)
  | vStr (s : String)
  | vFn
  | vMap
  | vSet
  | vDate
  | vRegExp
  | vArr (elems : List JsValue)
  | vObj (fields : List (String × JsValue))
deriving Repr

/-- The val === undefined test in the object branch of walkObject. -/
def isUndefinedV : JsValue → Bool
  | JsValue.vUndefined => true
  | _ => false

mutual

/-- walkObject from sandbox-guard.ts. The obj == null early return uses
loose equality, so it swallows undefined as well as null; each special
class and function pushes one warning naming its path and returns;
primitives return silently; arrays recurse by index and objects by key,
with an explicit val === undefined check only in the object branch. -/
def walkObject : JsValue → String → List String
  | JsValue.vNull, _ => []
  | JsValue.vUndefined, _ => []
  | JsValue.vFn, path =>
    ["Function at state" ++ path ++ " will be removed after JSON serialization."]
  | JsValue.vMap, path =>
    ["Map at state" ++ path ++
      " will become \x7b\x7d after JSON serialization. Use a plain object instead."]
  | JsValue.vSet, path =>
    ["Set at state" ++ path ++
      " will become \x7b\x7d after JSON serialization. Use an array instead."]
  | JsValue.vDate, path =>
    ["Date at state" ++ path ++
      " will become a string after JSON serialization. Use an ISO string instead."]
  | JsValue.vRegExp, path =>
    ["RegExp at state" ++ path ++ " will become \x7b\x7d after JSON serialization."]
  | JsValue.vBool _, _ => []
  | JsValue.vNum _, _ => []
  | JsValue.vStr _, _ => []
  | JsValue.vArr elems, path => walkArr elems path 0
  | JsValue.vObj fields, path => walkFields fields path

/-- The array loop of walkObject: element i is visited at path[i]. -/
def walkArr : List JsValue → String → Nat → List String
  | [], _, _ => []
  | x :: xs, path, i =>
    walkObject x (path ++ "[" ++ toString i ++ "]") ++ walkArr xs path (i + 1)

/-- The Object.keys loop of walkObject: a key whose value is undefined is
reported directly; every other value is visited at path.key. -/
def walkFields : List (String × JsValue) → String → List String
  | [], _ => []
  | (key, val) :: fs, path =>
    (if isUndefinedV val then
      ["undefined at state" ++ path ++ "." ++ key ++
        " will be removed after JSON serialization."]
    else walkObject val (path ++ "." ++ key)) ++ walkFields fs path

end

/-- checkStateSerializable from sandbox-guard.ts: returns immediately on a
null-ish state, otherwise walks the state from the empty path and prefixes
every warning with the sandbox banner and the call context. -/
def checkStateSerializable (state : JsValue) (context : String) : List String :=
  match state with
  | JsValue.vNull => []
  | JsValue.vUndefined => []
  | _ =>
    (walkObject state "").map
      (fun w => "[Sandbox] WARNING: " ++ context ++ " — " ++ w)

mutual

/-- Number of advisories the scan actually emits for a value: one per
function, Map, Set, Date or RegExp anywhere, plus one per undefined
appearing as an object-key value (array slots fall through the null-ish
early return). -/
def badCount : JsValue → Nat
  | JsValue.vFn | JsValue.vMap | JsValue.vSet | JsValue.vDate | JsValue.vRegExp => 1
  | JsValue.vArr elems => badCountArr elems
  | JsValue.vObj fields => badCountFields fields
  | _ => 0

def badCountArr : List JsValue → Nat
  | [] => 0
  | x :: xs => badCount x + badCountArr xs

def badCountFields : List (String × JsValue) → Nat
  | [] => 0
  | (_, val) :: fs => (if isUndefinedV val then 1 else badCount val) + badCountFields fs

end

mutual

/-- Plain JSON-safe values in the claim C6 sense: only null, booleans,
numbers, strings, arrays and plain objects, recursively. -/
def jsonSafe : JsValue → Bool
  | JsValue.vNull | JsValue.vBool _ | JsValue.vNum _ | JsValue.vStr _ => true
  | JsValue.vArr elems => jsonSafeArr elems
  | JsValue.vObj fields => jsonSafeFields fields
  | _ => false

def jsonSafeArr : List JsValue → Bool
  | [] => true
  | x :: xs => jsonSafe x && jsonSafeArr xs

def jsonSafeFields : List (String × JsValue) → Bool
  | [] => true
  | (_, val) :: fs => jsonSafe val && jsonSafeFields fs

end

mutual

/-- Occurrence count as claim C6 words it: one per occurrence of a
function, Map, Set, Date, RegExp or undefined value anywhere in the
structure, array elements included. -/
def specBadCount : JsValue → Nat
  | JsValue.vFn | JsValue.vMap | JsValue.vSet | JsValue.vDate
  | JsValue.vRegExp | JsValue.vUndefined => 1
  | JsValue.vArr elems => specBadCountArr elems
  | JsValue.vObj fields => specBadCountFields fields
  | _ => 0

def specBadCountArr : List JsValue → Nat
  | [] => 0
  | x :: xs => specBadCount x + specBadCountArr xs

def specBadCountFields : List (String × JsValue) → Nat
  | [] => 0
  | (_, val) :: fs => specBadCount val + specBadCountFields fs

end

/-- State used to refute claim C6: an object whose data field is an array
holding a single undefined element. -/
def c6State : JsValue :=
  JsValue.vObj [("data", JsValue.vArr [JsValue.vUndefined])]

/-- An engine together with the sandbox-advisory log each call emits. The
log is the observable difference between calling a raw loaded engine and
calling one wrapped by createSandboxedEngine. -/
structure LoggedEngine where
  init : List PubPlayer → JsValue × List String
  handleAction : JsValue → String → String → JsValue × List String
  isGameOver : JsValue → Bool

/-- createSandboxedEngine from sandbox-guard.ts, serialization aspect:
init and handleAction run the wrapped engine and then scan the returned
state with checkStateSerializable, emitting its advisories (the
timer-suppression aspect of the same wrapper is withTimerGuard above);
isGameOver returns the wrapped value and scans nothing. -/
def createSandboxedEngine (e : GameEngine JsValue) : LoggedEngine :=
  { init := fun ps =>
      let state := e.init ps
      (state, checkStateSerializable state "init()"),
    handleAction := fun s pid a =>
      let newState := e.handleAction s pid a
      (newState, checkStateSerializable newState "handleAction()"),
    isGameOver := e.isGameOver }

/-- The engine reference createSocketServer actually binds — the line
engine = loadEngine(projectDir) — is the raw loaded engine: its calls
emit no sandbox advisories, because socket-server.ts never imports
sandbox-guard.ts and console.warn is only called there. -/
def rawEngine (e : GameEngine JsValue) : LoggedEngine :=
  { init := fun ps => (e.init ps, []),
    handleAction := fun s pid a => (e.handleAction s pid a, []),
    isGameOver := e.isGameOver }

/-- startGame as run with an advisory-logging engine. -/
def startGameL (le : LoggedEngine) (room : GameRoom JsValue) :
    GameRoom JsValue × List String :=
  let r := le.init (toPublic room.players)
  ({ room with state := some r.1, phase := Phase.playing }, r.2)

/-- The game:start handler with the advisory log made observable. -/
def socketGameStartL (le : LoggedEngine) (room : GameRoom JsValue)
    (socketId : String) : (GameRoom JsValue × Bool) × List String :=
  match getPlayerBySocketId room socketId with
  | none => ((room, false), [])
  | some player =>
    if player.isHost = false then ((room, false), [])
    else if allPlayersReady room = false then ((room, false), [])
    else
      let r := startGameL le room
      ((r.1, true), r.2)

/-- The game-room handleAction as run with an advisory-logging engine. -/
def roomHandleActionL (le : LoggedEngine) (room : GameRoom JsValue)
    (playerId action : String) : (GameRoom JsValue × Bool) × List String :=
  if room.phase = Phase.playing then
    match room.state with
    | some s =>
      let r := le.handleAction s playerId action
      (({ room with
          state := some r.1,
          phase := if le.isGameOver r.1 then Phase.ended else room.phase }, true),
        r.2)
    | none => ((room, false), [])
  else ((room, false), [])

/-- The game:action handler with the advisory log made observable. -/
def socketGameActionL (le : LoggedEngine) (room : GameRoom JsValue)
    (playerId action : String) : (GameRoom JsValue × Bool) × List String :=
  if room.phase = Phase.playing ∨ room.phase = Phase.ended then
    roomHandleActionL le room playerId action
  else ((room, false), [])

/-- Engine whose init returns a state with a Map nested at .data.m, used
to separate the raw and sandboxed paths observably. -/
def c2Engine : GameEngine JsValue :=
  { init := fun _ => JsValue.vObj [("data", JsValue.vObj [("m", JsValue.vMap)])],
    handleAction := fun s _ _ => s,
    isGameOver := fun _ => false }

/-- A lobby room whose two seats are ready, with the host on socket s1. -/
def c2Room : GameRoom JsValue :=
  { players :=
      [{ id := "p1", nickname := "Alice", avatarUrl := none,
         isHost := true, socketId := "s1", ready := true },
       { id := "p2", nickname := "Bob", avatarUrl := none,
         isHost := false, socketId := "s2", ready := true }],
    state := none,
    phase := Phase.lobby,
    gameId := "dev-game" }

/-- The fixed name pool from the getNextAvailableName implementation in
the repository (game-room.ts addition, README Task 1). -/
def PLAYER_NAMES : List String :=
  ["Alice", "Bob", "Carol", "Dave", "Eve", "Frank", "Grace", "Heidi"]

/-- getNextAvailableName: the first pool name not currently used by any
seat, else the template Player (seatCount + 1) — returned without
re-checking it against the used names. -/
def getNextAvailableName (room : GameRoom S) : String :=
  let usedNames := room.players.map (fun p => p.nickname)
  match PLAYER_NAMES.find? (fun n => !(usedNames.contains n)) with
  | some n => n
  | none => "Player " ++ toString (room.players.length + 1)

/-- Room with nine seats holding all eight pool names plus the custom
name Player 10. -/
def c7Room : GameRoom Unit :=
  { players :=
      [{ id := "p1", nickname := "Alice", avatarUrl := none,
         isHost := true, socketId := "s1", ready := false },
       { id := "p2", nickname := "Bob", avatarUrl := none,
         isHost := false, socketId := "s2", ready := false },
       { id := "p3", nickname := "Carol", avatarUrl := none,
         isHost := false, socketId := "s3", ready := false },
       { id := "p4", nickname := "Dave", avatarUrl := none,
         isHost := false, socketId := "s4", ready := false },
       { id := "p5", nickname := "Eve", avatarUrl := none,
         isHost := false, socketId := "s5", ready := false },
       { id := "p6", nickname := "Frank", avatarUrl := none,
         isHost := false, socketId := "s6", ready := false },
       { id := "p7", nickname := "Grace", avatarUrl := none,
         isHost := false, socketId := "s7", ready := false },
       { id := "p8", nickname := "Heidi", avatarUrl := none,
         isHost := false, socketId := "s8", ready := false },
       { id := "p9", nickname := "Player 10", avatarUrl := none,
         isHost := false, socketId := "s9", ready := false }],
    state := none,
    phase := Phase.lobby,
    gameId := "dev-game" }

/-- Room with two seats named Alice and Bob. -/
def c7WitnessRoom : GameRoom Unit :=
  { players :=
      [{ id := "p1", nickname := "Alice", avatarUrl := none,
         isHost := true, socketId := "s1", ready := false },
       { id := "p2", nickname := "Bob", avatarUrl := none,
         isHost := false, socketId := "s2", ready := false }],
    state := none,
    phase := Phase.lobby,
    gameId := "dev-game" }

/-- createMockPlayers from packages/sdk/src/testing/mock-players.ts: ids
player-1.., nicknames Player 1.., first player host. The SDK Player shape
coincides with PubPlayer. -/
def createMockPlayers (count : Nat) : List PubPlayer :=
  (List.range count).map (fun i =>
    { id := "player-" ++ toString (i + 1),
      nickname := "Player " ++ toString (i + 1),
      avatarUrl := none,
      isHost := i == 0 })

/-- Hint values of the number-guess engine. -/
inductive Hint where
  | high
  | low
deriving DecidableEq, Repr

/-- lastGuess record of the number-guess engine. -/
structure LastGuess where
  playerId : String
  playerName : String
  guess : Int
  hint : Hint
deriving DecidableEq, Repr

/-- GuessGameData from examples/number-guess/src/types.ts. -/
structure GuessData where
  secretNumber : Int
  low : Int
  high : Int
  currentPlayerIndex : Nat
  lastGuess : Option LastGuess
  loserId : Option String
deriving DecidableEq, Repr

/-- The per-seat entry the number-guess init stores (id and nickname). -/
structure NGPlayer where
  id : String
  nickname : String
deriving DecidableEq, Repr

/-- GameState as the number-guess engine uses it. -/
structure NGState where
  phase : String
  players : List NGPlayer
  data : GuessData
deriving DecidableEq, Repr

/-- A GUESS action: payload some n models a payload carrying an integer
number field; none models a missing or non-integer payload (the typeof
and Number.isInteger rejections). -/
structure NGAction where
  type : String
  payload : Option Int
deriving DecidableEq, Repr

/-- init of the number-guess engine. The source draws the secret as
Math.floor(Math.random() * 100) + 1; the draw is modelled as the explicit
parameter secretNumber, constrained to [1, 100] where the claims need it. -/
def ngInit (players : List PubPlayer) (secretNumber : Int) : NGState :=
  { phase := "playing",
    players := players.map (fun p => { id := p.id, nickname := p.nickname }),
    data := { secretNumber := secretNumber, low := 1, high := 100,
              currentPlayerIndex := 0, lastGuess := none, loserId := none } }

/-- handleAction of the number-guess engine: rejects (returning the input
state) when the phase is not playing, the action type is not GUESS, the
issuer is not the current player, the payload has no integer, or the
guess is outside [low, high]; an exact hit ends the game recording the
guesser as loserId; otherwise the range narrows and the turn advances. -/
def ngHandleAction (state : NGState) (playerId : String) (action : NGAction) :
    NGState :=
  if state.phase ≠ "playing" then state
  else if action.type ≠ "GUESS" then state
  else
    match state.players[state.data.currentPlayerIndex]? with
    | none => state
    | some currentPlayer =>
      if currentPlayer.id ≠ playerId then state
      else
        match action.payload with
        | none => state
        | some guess =>
          if guess < state.data.low ∨ guess > state.data.high then state
          else if guess = state.data.secretNumber then
            { state with
              phase := "ended",
              data := { state.data with
                loserId := some playerId,
                lastGuess := some ⟨playerId, currentPlayer.nickname, guess, Hint.low⟩ } }
          else
            let hint := if guess > state.data.secretNumber then Hint.high else Hint.low
            let newLow :=
              if hint = Hint.low then max state.data.low (guess + 1) else state.data.low
            let newHigh :=
              if hint = Hint.high then min state.data.high (guess - 1) else state.data.high
            let nextIndex := (state.data.currentPlayerIndex + 1) % state.players.length
            { state with
              data := { state.data with
                low := newLow, high := newHigh, currentPlayerIndex := nextIndex,
                lastGuess := some ⟨playerId, currentPlayer.nickname, guess, hint⟩ } }

/-- isGameOver of the number-guess engine. -/
def ngIsGameOver (state : NGState) : Bool :=
  state.phase == "ended"

/-- One entry of a GameResult. -/
structure Ranking where
  playerId : String
  rank : Nat
  score : Nat
  isWinner : Bool
deriving DecidableEq, Repr

/-- GameResult of the SDK. -/
structure GameResult where
  rankings : List Ranking
deriving DecidableEq, Repr

/-- getResult of the number-guess engine: the seat recorded as loserId is
ranked last with score 0 and isWinner false; every other seat is ranked 1
with score 1 and isWinner true. -/
def ngGetResult (state : NGState) : GameResult :=
  { rankings := state.players.map (fun p =>
      { playerId := p.id,
        rank := if state.data.loserId == some p.id then state.players.length else 1,
        score := if state.data.loserId == some p.id then 0 else 1,
        isWinner := !(state.data.loserId == some p.id) }) }

/-- GameSimulator state (packages/sdk/src/testing/game-simulator.ts):
mock players plus the live engine state; the action log is not needed for
the claims settled here. -/
structure NGSim where
  players : List PubPlayer
  state : NGState
deriving Repr

/-- GameSimulator.start for the number-guess engine with the modelled
secret. -/
def simStart (playerCount : Nat) (secretNumber : Int) : NGSim :=
  let ps := createMockPlayers playerCount
  { players := ps, state := ngInit ps secretNumber }

/-- GameSimulator.currentTurn: reads data.currentPlayerIndex (the field
always exists for this engine, so the ?? 0 default never applies). -/
def simCurrentTurn (sim : NGSim) : Nat :=
  sim.state.data.currentPlayerIndex

/-- GameSimulator.act: dispatches to the engine as the player at the
given index. The source throws on an out-of-range index; that branch
returns the simulator unchanged here and is never reached by the
strategy below, which always passes the current player index (kept below
the seat count by the modulo in the engine). -/
def simAct (sim : NGSim) (playerIndex : Nat) (action : NGAction) : NGSim :=
  match sim.players[playerIndex]? with
  | some p => { sim with state := ngHandleAction sim.state p.id action }
  | none => sim

/-- One step of the binary-search strategy of the spec scenario: if the
game is not over, the current player guesses the midpoint of the current
range. -/
def binaryStep (sim : NGSim) : NGSim :=
  if ngIsGameOver sim.state then sim
  else
    simAct sim (simCurrentTurn sim)
      { type := "GUESS",
        payload := some ((sim.state.data.low + sim.state.data.high) / 2) }

/-- Run the binary-search strategy for at most the given number of GUESS
actions. -/
def runBinary : Nat → NGSim → NGSim
  | 0, sim => sim
  | n + 1, sim => runBinary n (binaryStep sim)

theorem applyOp_stateNullIffLobby (e : GameEngine S) (room : GameRoom S)
    (op : RoomOp) (h : stateNullIffLobby room) :
    stateNullIffLobby (applyOp e room op) := by
  cases op with
  | add newId socketId nickname =>
    simpa [applyOp, addPlayer, stateNullIffLobby] using h
  | remove socketId =>
    simp only [applyOp, removePlayer]
    cases hf : removeFirst room.players socketId with
    | none => simpa [stateNullIffLobby] using h
    | some pr => simpa [stateNullIffLobby] using h
  | setReady socketId r =>
    simpa [applyOp, setPlayerReady, stateNullIffLobby] using h
  | start =>
    simp [applyOp, startGame, stateNullIffLobby]
  | act pid a =>
    simp only [applyOp, roomHandleAction, roomHandleActionT]
    by_cases hp : room.phase = Phase.playing
    · simp only [hp, if_pos rfl]
      cases hs : room.state with
      | none => exact h
      | some s =>
        by_cases hg : e.isGameOver (e.handleAction s pid a)
        · simp [stateNullIffLobby, hs, hg]
        · simp [stateNullIffLobby, hs, hg, hp]
    · simpa [hp, stateNullIffLobby] using h
  | reset =>
    simp [applyOp, resetRoom, stateNullIffLobby]

theorem applyOps_stateNullIffLobby (e : GameEngine S) (room : GameRoom S)
    (ops : List RoomOp) (h : stateNullIffLobby room) :
    stateNullIffLobby (applyOps e room ops) := by
  induction ops generalizing room with
  | nil => simpa [applyOps] using h
  | cons op rest ih =>
    have h1 := applyOp_stateNullIffLobby e room op h
    simpa [applyOps, List.foldl_cons] using ih (applyOp e room op) h1

/-- C3: for every sequence of room operations starting from createRoom,
after each operation the engine state is null iff the phase is lobby or
ready (equivalently, non-null iff the phase is playing or ended). -/
theorem room_state_null_iff_lobby (S : Type) (e : GameEngine S)
    (gameId : String) (ops : List RoomOp) :
    stateNullIffLobby (applyOps e (createRoom S gameId) ops) := by
  apply applyOps_stateNullIffLobby
  simp [createRoom, stateNullIffLobby]

/-- C10: the declared phase ready is unreachable — no room operation ever
assigns it, so every room reachable from createRoom has phase lobby,
playing or ended. -/
theorem room_phase_never_ready (S : Type) (e : GameEngine S)
    (gameId : String) (ops : List RoomOp) :
    (applyOps e (createRoom S gameId) ops).phase ≠ Phase.ready := by
  suffices h : ∀ room : GameRoom S, room.phase ≠ Phase.ready →
      (applyOps e room ops).phase ≠ Phase.ready by
    exact h (createRoom S gameId) (by simp [createRoom])
  induction ops with
  | nil => intro room h; exact h
  | cons op rest ih =>
    intro room h
    have h1 : (applyOp e room op).phase ≠ Phase.ready := by
      cases op with
      | add newId socketId nickname => simpa [applyOp, addPlayer] using h
      | remove socketId =>
        simp only [applyOp, removePlayer]
        cases hf : removeFirst room.players socketId with
        | none => simpa using h
        | some pr => simpa using h
      | setReady socketId r => simpa [applyOp, setPlayerReady] using h
      | start => simp [applyOp, startGame]
      | act pid a =>
        simp only [applyOp, roomHandleAction, roomHandleActionT]
        by_cases hp : room.phase = Phase.playing
        · simp only [hp, if_pos rfl]
          cases hs : room.state with
          | none => simpa using h
          | some s =>
            by_cases hg : e.isGameOver (e.handleAction s pid a)
            · simp [hg]
            · simp [hg, hp]
        · simpa [hp] using h
      | reset => simp [applyOp, resetRoom]
    simpa [applyOps, List.foldl_cons] using ih (applyOp e room op) h1

theorem removeFirst_mem (l : List Player) (sid : String) :
    ∀ r l', removeFirst l sid = some (r, l') → r ∈ l ∧ ∀ q ∈ l', q ∈ l := by
  induction l with
  | nil => intro r l' h; simp [removeFirst] at h
  | cons p rest ih =>
    intro r l' h
    by_cases hp : p.socketId = sid
    · rw [removeFirst, if_pos hp] at h
      simp only [Option.some.injEq, Prod.mk.injEq] at h
      obtain ⟨h1, h2⟩ := h
      subst h1; subst h2
      exact ⟨List.mem_cons_self .., fun q hq => List.mem_cons_of_mem _ hq⟩
    · rw [removeFirst, if_neg hp] at h
      cases hrec : removeFirst rest sid with
      | none => rw [hrec] at h; simp at h
      | some pr =>
        obtain ⟨r0, rest0⟩ := pr
        rw [hrec] at h
        simp only [Option.some.injEq, Prod.mk.injEq] at h
        obtain ⟨h1, h2⟩ := h
        obtain ⟨hr, hsub⟩ := ih r0 rest0 hrec
        subst h1
        refine ⟨List.mem_cons_of_mem _ hr, ?_⟩
        intro q hq
        rw [← h2] at hq
        rcases List.mem_cons.mp hq with hq | hq
        · exact hq ▸ List.mem_cons_self ..
        · exact List.mem_cons_of_mem _ (hsub q hq)

theorem removeFirst_cases (l : List Player) (sid : String) :
    ∀ r l', removeFirst l sid = some (r, l') →
      (l = r :: l') ∨
      (∃ p t t', l = p :: t ∧ l' = p :: t' ∧ removeFirst t sid = some (r, t')) := by
  cases l with
  | nil => intro r l' h; simp [removeFirst] at h
  | cons p rest =>
    intro r l' h
    by_cases hp : p.socketId = sid
    · rw [removeFirst, if_pos hp] at h
      simp only [Option.some.injEq, Prod.mk.injEq] at h
      obtain ⟨h1, h2⟩ := h
      subst h1; subst h2
      exact Or.inl rfl
    · rw [removeFirst, if_neg hp] at h
      cases hrec : removeFirst rest sid with
      | none => rw [hrec] at h; simp at h
      | some pr =>
        obtain ⟨r0, rest0⟩ := pr
        rw [hrec] at h
        simp only [Option.some.injEq, Prod.mk.injEq] at h
        obtain ⟨h1, h2⟩ := h
        subst h1
        exact Or.inr ⟨p, rest, rest0, rfl, h2.symm, hrec⟩

theorem hostInv_addPlayer (room : GameRoom Unit) (newId socketId nickname : String)
    (h : hostInv room.players) :
    hostInv ((addPlayer room newId socketId nickname).1).players := by
  cases hps : room.players with
  | nil => simp [addPlayer, hps, hostInv]
  | cons p rest =>
    rw [hps] at h
    obtain ⟨h1, h2⟩ := h
    simp only [addPlayer, hps]
    refine ⟨h1, ?_⟩
    intro q hq
    rcases List.mem_append.mp hq with hq | hq
    · exact h2 q hq
    · simp only [List.mem_singleton] at hq
      subst hq
      simp [hps]

theorem hostInv_promoteHost (l : List Player)
    (h : ∀ q ∈ l, q.isHost = false) : hostInv (promoteHost l) := by
  cases l with
  | nil => simp [promoteHost, hostInv]
  | cons p rest =>
    refine ⟨rfl, ?_⟩
    intro q hq
    exact h q (List.mem_cons_of_mem _ hq)

theorem hostInv_removePlayer (room : GameRoom Unit) (socketId : String)
    (h : hostInv room.players) :
    hostInv ((removePlayer room socketId).1).players := by
  simp only [removePlayer]
  cases hf : removeFirst room.players socketId with
  | none => exact h
  | some pr =>
    obtain ⟨removed, remaining⟩ := pr
    simp only
    rcases removeFirst_cases room.players socketId removed remaining hf with hc | hc
    · -- the removed seat was the head of the roster
      rw [hc] at h
      obtain ⟨h1, h2⟩ := h
      rw [h1]
      by_cases hlen : 0 < remaining.length
      · rw [if_pos (by simp [hlen])]
        exact hostInv_promoteHost remaining h2
      · rw [if_neg (by simp [hlen])]
        cases hrem : remaining with
        | nil => simp [hostInv]
        | cons a b => rw [hrem] at hlen; simp at hlen
    · -- the removed seat came from the tail, hence was not host
      obtain ⟨p, t, t', hl, hl', hrec⟩ := hc
      rw [hl] at h
      obtain ⟨h1, h2⟩ := h
      have hmem := (removeFirst_mem t socketId removed t' hrec).1
      have hsub := (removeFirst_mem t socketId removed t' hrec).2
      have hrh : removed.isHost = false := h2 removed hmem
      rw [hrh]
      simp only [Bool.false_and, Bool.false_eq_true, if_false]
      rw [hl']
      refine ⟨h1, ?_⟩
      intro q hq
      exact h2 q (hsub q hq)

theorem hostInv_applyARs (room : GameRoom Unit) (ops : List ARop)
    (h : hostInv room.players) : hostInv (applyARs room ops).players := by
  induction ops generalizing room with
  | nil => exact h
  | cons op rest ih =>
    have h1 : hostInv (applyAR room op).players := by
      cases op with
      | add newId socketId nickname => exact hostInv_addPlayer room newId socketId nickname h
      | remove socketId => exact hostInv_removePlayer room socketId h
    simpa [applyARs, List.foldl_cons] using ih (applyAR room op) h1

theorem hostInv_count {l : List Player} (h : hostInv l) :
    (l.filter (fun p => p.isHost)).length ≤ 1 := by
  cases l with
  | nil => simp
  | cons p rest =>
    obtain ⟨h1, h2⟩ := h
    have hrest : rest.filter (fun p => p.isHost) = [] := by
      apply List.filter_eq_nil_iff.mpr
      intro q hq
      simp [h2 q hq]
    simp [List.filter_cons, h1, hrest]

theorem host_transfer_of_hostInv (room : GameRoom Unit) (h : hostInv room.players)
    (sid : String) (r' : GameRoom Unit) (removed : Player)
    (hrem : removePlayer room sid = (r', some removed))
    (hh : removed.isHost = true) (hne : r'.players ≠ []) :
    ∃ q t, r'.players = q :: t ∧ q.isHost = true ∧ (∀ p ∈ t, p.isHost = false) ∧
      r'.players.map Player.id = room.players.tail.map Player.id := by
  simp only [removePlayer] at hrem
  cases hf : removeFirst room.players sid with
  | none =>
    rw [hf] at hrem
    simp at hrem
  | some pr =>
    obtain ⟨rm, remaining⟩ := pr
    rw [hf] at hrem
    simp only [Prod.mk.injEq, Option.some.injEq] at hrem
    obtain ⟨hr', hrm⟩ := hrem
    rw [hrm] at hf hr'
    rcases removeFirst_cases room.players sid removed remaining hf with hc | hc
    · rw [hc] at h
      obtain ⟨_, h2⟩ := h
      cases remaining with
      | nil =>
        rw [← hr'] at hne
        simp [promoteHost] at hne
      | cons a b =>
        have hps : r'.players = promoteHost (a :: b) := by
          rw [← hr']
          simp [hh]
        refine ⟨{ a with isHost := true }, b, ?_, rfl, ?_, ?_⟩
        · rw [hps]; rfl
        · intro p hp
          exact h2 p (List.mem_cons_of_mem _ hp)
        · rw [hps, hc]
          simp [promoteHost]
    · obtain ⟨p, t, t', hl, hl', hrec⟩ := hc
      rw [hl] at h
      obtain ⟨_, h2⟩ := h
      have hmem := (removeFirst_mem t sid removed t' hrec).1
      have : removed.isHost = false := h2 removed hmem
      rw [this] at hh
      exact absurd hh (by simp)

/-- C4: over every sequence of addPlayer and removePlayer operations from
an empty room, at most one seat is host; and removing the host while seats
remain makes the lowest-insertion-order remaining seat (the head of the
order-preserving remainder) the unique host. -/
theorem host_unique_and_transfer (gameId : String) (ops : List ARop) :
    (((applyARs (createRoom Unit gameId) ops).players.filter
        (fun p => p.isHost)).length ≤ 1)
    ∧ (∀ sid r' removed,
        removePlayer (applyARs (createRoom Unit gameId) ops) sid = (r', some removed) →
        removed.isHost = true → r'.players ≠ [] →
        ∃ q t, r'.players = q :: t ∧ q.isHost = true ∧
          (∀ p ∈ t, p.isHost = false) ∧
          r'.players.map Player.id
            = (applyARs (createRoom Unit gameId) ops).players.tail.map Player.id) := by
  have hinv : hostInv (applyARs (createRoom Unit gameId) ops).players :=
    hostInv_applyARs (createRoom Unit gameId) ops (by simp [createRoom, hostInv])
  refine ⟨hostInv_count hinv, ?_⟩
  intro sid r' removed hrem hh hne
  exact host_transfer_of_hostInv _ hinv sid r' removed hrem hh hne

theorem host_unique_and_transfer_witness :
    ∃ q t,
      (removePlayer (applyARs (createRoom Unit "dev")
          [ARop.add "p1" "s1" "Alice", ARop.add "p2" "s2" "Bob"]) "s1").1.players
        = q :: t ∧ q.isHost = true ∧ ∀ p ∈ t, p.isHost = false := by
  have heq : removePlayer (applyARs (createRoom Unit "dev")
      [ARop.add "p1" "s1" "Alice", ARop.add "p2" "s2" "Bob"]) "s1"
      = (⟨[⟨"p2", "Bob", none, true, "s2", false⟩], none, Phase.lobby, "dev"⟩,
         some ⟨"p1", "Alice", none, true, "s1", false⟩) := by decide
  obtain ⟨q, t, h1, h2, h3, _⟩ :=
    (host_unique_and_transfer "dev"
      [ARop.add "p1" "s1" "Alice", ARop.add "p2" "s2" "Bob"]).2
      "s1" _ _ heq (by decide) (by decide)
  rw [heq]
  exact ⟨q, t, h1, h2, h3⟩

/-- C1 counterexample: an action event arriving while the phase is ended
passes the socket-level filter but does NOT invoke engine.handleAction and
does NOT replace the engine state (the claim asserts it would): the room
is returned unchanged with the invocation flag false, although the engine
would have produced the distinct state 6 from the stored state 5. -/
theorem action_while_ended_counterexample :
    socketGameAction c1Engine c1Room "p1" "GUESS" = (c1Room, false)
    ∧ c1Engine.handleAction 5 "p1" "GUESS" = 6 := by
  constructor
  · rfl
  · rfl

/-- C1 amended: the engine handleAction call and the unconditional state
replacement happen exactly when the phase is playing (with non-null
state); while the phase is ended the event passes the socket-level filter
but leaves the engine state untouched and never calls the engine. -/
theorem action_dispatch_amended (e : GameEngine S) (room : GameRoom S)
    (playerId action : String) :
    (∀ s, room.phase = Phase.playing → room.state = some s →
      socketGameAction e room playerId action =
        ({ room with
            state := some (e.handleAction s playerId action),
            phase :=
              if e.isGameOver (e.handleAction s playerId action) then Phase.ended
              else Phase.playing }, true))
    ∧ (room.phase ≠ Phase.playing →
        (socketGameAction e room playerId action).1 = room
        ∧ (socketGameAction e room playerId action).2 = false) := by
  constructor
  · intro s hp hs
    simp [socketGameAction, roomHandleActionT, hp, hs]
  · intro hp
    simp only [socketGameAction]
    by_cases he : room.phase = Phase.ended
    · simp [roomHandleActionT, hp, he]
    · simp [roomHandleActionT, hp, he]

theorem action_dispatch_amended_witness :
    socketGameAction c1Engine
      { players := [], state := some 5, phase := Phase.playing, gameId := "dev-game" }
      "p1" "X"
      = ({ players := [], state := some 6, phase := Phase.playing,
           gameId := "dev-game" }, true) := by
  have h := (action_dispatch_amended c1Engine
      { players := [], state := some 5, phase := Phase.playing, gameId := "dev-game" }
      "p1" "X").1 5 rfl rfl
  simpa [c1Engine] using h

/-- C9: a start event from the host is not rejected while the phase is
already playing or ended; provided every seat is still ready (ready flags
are only cleared by reset), the handler calls init again, unconditionally
overwrites the engine state with a fresh initial state and sets the phase
back to playing; and the roster is left ready, so yet another start would
fire too. -/
theorem restart_without_reset (e : GameEngine S) (room : GameRoom S)
    (socketId : String) (player : Player)
    (hp : getPlayerBySocketId room socketId = some player)
    (hhost : player.isHost = true)
    (hready : allPlayersReady room = true)
    (_hphase : room.phase = Phase.playing ∨ room.phase = Phase.ended) :
    socketGameStartT e room socketId
      = ({ room with
            state := some (e.init (toPublic room.players)),
            phase := Phase.playing }, true)
    ∧ allPlayersReady (socketGameStartT e room socketId).1 = true := by
  have h1 : socketGameStartT e room socketId = (startGame e room, true) := by
    simp [socketGameStartT, hp, hhost, hready]
  constructor
  · rw [h1]; rfl
  · rw [h1]
    simpa [startGame, allPlayersReady] using hready

theorem restart_without_reset_witness :
    socketGameStartT c9Engine c9Room "s1"
      = ({ c9Room with state := some 2, phase := Phase.playing }, true)
    ∧ allPlayersReady (socketGameStartT c9Engine c9Room "s1").1 = true := by
  have h := restart_without_reset c9Engine c9Room "s1"
      { id := "p1", nickname := "Alice", avatarUrl := none,
        isHost := true, socketId := "s1", ready := true }
      (by decide) rfl (by decide) (Or.inr rfl)
  obtain ⟨h1, h2⟩ := h
  refine ⟨?_, h2⟩
  rw [h1]
  rfl

theorem runNoops_handles (calls : List TimerPrim) : ∀ warnedT warnedI,
    (∀ h ∈ (runNoops calls warnedT warnedI).1, h = 0)
    ∧ (runNoops calls warnedT warnedI).1.length
        = (calls.filter
            (fun c => c = TimerPrim.setTimeout ∨ c = TimerPrim.setInterval)).length := by
  induction calls with
  | nil => intro warnedT warnedI; simp [runNoops]
  | cons c rest ih =>
    intro warnedT warnedI
    cases c with
    | setTimeout =>
      obtain ⟨ih1, ih2⟩ := ih true warnedI
      constructor
      · intro h hh
        simp only [runNoops, List.mem_cons] at hh
        rcases hh with hh | hh
        · exact hh
        · exact ih1 h hh
      · simp [runNoops, List.filter_cons, ih2]
    | setInterval =>
      obtain ⟨ih1, ih2⟩ := ih warnedT true
      constructor
      · intro h hh
        simp only [runNoops, List.mem_cons] at hh
        rcases hh with hh | hh
        · exact hh
        · exact ih1 h hh
      · simp [runNoops, List.filter_cons, ih2]
    | clearTimeout =>
      obtain ⟨ih1, ih2⟩ := ih warnedT warnedI
      exact ⟨fun h hh => ih1 h (by simpa [runNoops] using hh),
             by simp [runNoops, List.filter_cons, ih2]⟩
    | clearInterval =>
      obtain ⟨ih1, ih2⟩ := ih warnedT warnedI
      exact ⟨fun h hh => ih1 h (by simpa [runNoops] using hh),
             by simp [runNoops, List.filter_cons, ih2]⟩

theorem noopMsg_neq : noopMsg "setTimeout" ≠ noopMsg "setInterval" := by decide

theorem runNoops_countT (calls : List TimerPrim) : ∀ warnedT warnedI,
    (runNoops calls warnedT warnedI).2.count (noopMsg "setTimeout")
      = if warnedT = false ∧ TimerPrim.setTimeout ∈ calls then 1 else 0 := by
  induction calls with
  | nil => intro warnedT warnedI; simp [runNoops]
  | cons c rest ih =>
    intro warnedT warnedI
    cases c with
    | setTimeout =>
      cases warnedT with
      | false => simp [runNoops, List.count_append, ih true warnedI]
      | true => simp [runNoops, List.count_append, ih true warnedI]
    | setInterval =>
      cases warnedI with
      | false =>
        simp [runNoops, List.count_append, ih warnedT true,
          List.count_singleton, noopMsg_neq]
      | true => simp [runNoops, List.count_append, ih warnedT true]
    | clearTimeout => simp [runNoops, ih warnedT warnedI]
    | clearInterval => simp [runNoops, ih warnedT warnedI]

theorem runNoops_countI (calls : List TimerPrim) : ∀ warnedT warnedI,
    (runNoops calls warnedT warnedI).2.count (noopMsg "setInterval")
      = if warnedI = false ∧ TimerPrim.setInterval ∈ calls then 1 else 0 := by
  induction calls with
  | nil => intro warnedT warnedI; simp [runNoops]
  | cons c rest ih =>
    intro warnedT warnedI
    cases c with
    | setTimeout =>
      cases warnedT with
      | false =>
        simp [runNoops, List.count_append, ih true warnedI,
          List.count_singleton, noopMsg_neq, Ne.symm noopMsg_neq]
      | true => simp [runNoops, List.count_append, ih true warnedI]
    | setInterval =>
      cases warnedI with
      | false => simp [runNoops, List.count_append, ih warnedT true]
      | true => simp [runNoops, List.count_append, ih warnedT true]
    | clearTimeout => simp [runNoops, ih warnedT warnedI]
    | clearInterval => simp [runNoops, ih warnedT warnedI]

theorem runNoops_members (calls : List TimerPrim) : ∀ warnedT warnedI,
    ∀ w ∈ (runNoops calls warnedT warnedI).2,
      w = noopMsg "setTimeout" ∨ w = noopMsg "setInterval" := by
  induction calls with
  | nil => intro warnedT warnedI w hw; simp [runNoops] at hw
  | cons c rest ih =>
    intro warnedT warnedI w hw
    cases c with
    | setTimeout =>
      simp only [runNoops, List.mem_append] at hw
      rcases hw with hw | hw
      · cases warnedT with
        | false => simp at hw; exact Or.inl hw
        | true => simp at hw
      · exact ih true warnedI w hw
    | setInterval =>
      simp only [runNoops, List.mem_append] at hw
      rcases hw with hw | hw
      · cases warnedI with
        | false => simp at hw; exact Or.inr hw
        | true => simp at hw
      · exact ih warnedT true w hw
    | clearTimeout => exact ih warnedT warnedI w (by simpa [runNoops] using hw)
    | clearInterval => exact ih warnedT warnedI w (by simpa [runNoops] using hw)

/-- C5: during a guarded engine call the substituted schedule primitives
return the sentinel handle 0 (one sentinel per schedule invocation) and
emit exactly one advisory per schedule-primitive name that the call
invokes (and nothing else); the timer slots are restored to their
pre-call contents unconditionally, and the wrapped outcome — value or
thrown exception — propagates unchanged after that restoration. -/
theorem timer_guard_spec (A : Type) (g : TimerGlobals) (body : EngineCallBody A) :
    (withTimerGuard g body).globalsAfter = g
    ∧ (withTimerGuard g body).result = body.outcome
    ∧ (∀ h ∈ (withTimerGuard g body).handles, h = 0)
    ∧ (withTimerGuard g body).handles.length
        = (body.timerCalls.filter
            (fun c => c = TimerPrim.setTimeout ∨ c = TimerPrim.setInterval)).length
    ∧ (withTimerGuard g body).advisories.count (noopMsg "setTimeout")
        = (if TimerPrim.setTimeout ∈ body.timerCalls then 1 else 0)
    ∧ (withTimerGuard g body).advisories.count (noopMsg "setInterval")
        = (if TimerPrim.setInterval ∈ body.timerCalls then 1 else 0)
    ∧ (∀ w ∈ (withTimerGuard g body).advisories,
        w = noopMsg "setTimeout" ∨ w = noopMsg "setInterval") := by
  refine ⟨?_, rfl, ?_, ?_, ?_, ?_, ?_⟩
  · cases g; rfl
  · exact (runNoops_handles body.timerCalls false false).1
  · exact (runNoops_handles body.timerCalls false false).2
  · simpa using runNoops_countT body.timerCalls false false
  · simpa using runNoops_countI body.timerCalls false false
  · exact runNoops_members body.timerCalls false false

theorem timer_guard_spec_witness :
    (withTimerGuard ⟨true, true, true, true⟩ c5Body).globalsAfter
        = ⟨true, true, true, true⟩
    ∧ (withTimerGuard ⟨true, true, true, true⟩ c5Body).result
        = Except.error "boom"
    ∧ (withTimerGuard ⟨true, true, true, true⟩ c5Body).advisories
        = [noopMsg "setTimeout"]
    ∧ (withTimerGuard ⟨true, true, true, true⟩ c5Body).handles = [0, 0] := by
  have h := timer_guard_spec Int ⟨true, true, true, true⟩ c5Body
  exact ⟨h.1, h.2.1, rfl, rfl⟩

mutual

theorem walkObject_length (v : JsValue) (path : String) :
    (walkObject v path).length = badCount v :=
  match v with
  | JsValue.vNull => by simp [walkObject, badCount]
  | JsValue.vUndefined => by simp [walkObject, badCount]
  | JsValue.vFn => by simp [walkObject, badCount]
  | JsValue.vMap => by simp [walkObject, badCount]
  | JsValue.vSet => by simp [walkObject, badCount]
  | JsValue.vDate => by simp [walkObject, badCount]
  | JsValue.vRegExp => by simp [walkObject, badCount]
  | JsValue.vBool b => by simp [walkObject, badCount]
  | JsValue.vNum n => by simp [walkObject, badCount]
  | JsValue.vStr s => by simp [walkObject, badCount]
  | JsValue.vArr elems => by
    simp only [walkObject, badCount]
    exact walkArr_length elems path 0
  | JsValue.vObj fields => by
    simp only [walkObject, badCount]
    exact walkFields_length fields path

theorem walkArr_length (xs : List JsValue) (path : String) (i : Nat) :
    (walkArr xs path i).length = badCountArr xs :=
  match xs with
  | [] => by simp [walkArr, badCountArr]
  | x :: rest => by
    simp only [walkArr, badCountArr, List.length_append]
    rw [walkObject_length x (path ++ "[" ++ toString i ++ "]"),
      walkArr_length rest path (i + 1)]

theorem walkFields_length (fs : List (String × JsValue)) (path : String) :
    (walkFields fs path).length = badCountFields fs :=
  match fs with
  | [] => by simp [walkFields, badCountFields]
  | (key, val) :: rest => by
    simp only [walkFields, badCountFields, List.length_append]
    rw [walkFields_length rest path]
    by_cases h : isUndefinedV val = true
    · simp [h]
    · simp only [Bool.not_eq_true] at h
      simp [h, walkObject_length val (path ++ "." ++ key)]

end

theorem jsonSafe_not_undefined {v : JsValue} (h : jsonSafe v = true) :
    isUndefinedV v = false := by
  cases v <;> simp_all [jsonSafe, isUndefinedV]

mutual

theorem walkObject_nil_of_safe (v : JsValue) (path : String)
    (h : jsonSafe v = true) : walkObject v path = [] :=
  match v with
  | JsValue.vNull => by simp [walkObject]
  | JsValue.vUndefined => by simp [walkObject]
  | JsValue.vFn => by simp [jsonSafe] at h
  | JsValue.vMap => by simp [jsonSafe] at h
  | JsValue.vSet => by simp [jsonSafe] at h
  | JsValue.vDate => by simp [jsonSafe] at h
  | JsValue.vRegExp => by simp [jsonSafe] at h
  | JsValue.vBool b => by simp [walkObject]
  | JsValue.vNum n => by simp [walkObject]
  | JsValue.vStr s => by simp [walkObject]
  | JsValue.vArr elems => by
    simp only [walkObject]
    exact walkArr_nil_of_safe elems path 0 (by simpa [jsonSafe] using h)
  | JsValue.vObj fields => by
    simp only [walkObject]
    exact walkFields_nil_of_safe fields path (by simpa [jsonSafe] using h)

theorem walkArr_nil_of_safe (xs : List JsValue) (path : String) (i : Nat)
    (h : jsonSafeArr xs = true) : walkArr xs path i = [] :=
  match xs with
  | [] => by simp [walkArr]
  | x :: rest => by
    simp only [jsonSafeArr, Bool.and_eq_true] at h
    simp only [walkArr, List.append_eq_nil]
    exact ⟨walkObject_nil_of_safe x (path ++ "[" ++ toString i ++ "]") h.1,
      walkArr_nil_of_safe rest path (i + 1) h.2⟩

theorem walkFields_nil_of_safe (fs : List (String × JsValue)) (path : String)
    (h : jsonSafeFields fs = true) : walkFields fs path = [] :=
  match fs with
  | [] => by simp [walkFields]
  | (key, val) :: rest => by
    simp only [jsonSafeFields, Bool.and_eq_true] at h
    simp only [walkFields, List.append_eq_nil]
    refine ⟨?_, walkFields_nil_of_safe rest path h.2⟩
    rw [jsonSafe_not_undefined h.1]
    simp only [Bool.false_eq_true, if_false]
    exact walkObject_nil_of_safe val (path ++ "." ++ key) h.1

end

/-- C6 counterexample: the claim demands one advisory per occurrence of an
undefined value anywhere in the structure, but for a state whose only
defect is an undefined array element (one occurrence by the claim's own
count) the scan emits zero advisories — the loose null check at the top
of walkObject swallows undefined array slots. -/
theorem serialization_scan_counterexample :
    checkStateSerializable c6State "init()" = [] ∧ specBadCount c6State = 1 := by
  constructor
  · rfl
  · rfl

/-- C6 amended: the scan emits exactly one advisory per occurrence of a
function, Map, Set, Date or RegExp anywhere in the returned state and per
undefined value appearing as an object-key value, each naming its path;
undefined array elements (and an entirely null or undefined state) are
silently skipped; a state of only plain JSON-safe values yields zero
advisories. -/
theorem serialization_scan_amended (v : JsValue) (context : String) :
    (checkStateSerializable v context).length = badCount v
    ∧ (jsonSafe v = true → checkStateSerializable v context = [])
    ∧ walkObject
        (JsValue.vObj [("nested", JsValue.vObj [("deep",
          JsValue.vObj [("items", JsValue.vSet)])])]) ""
        = ["Set at state.nested.deep.items will become \x7b\x7d after " ++
           "JSON serialization. Use an array instead."] := by
  refine ⟨?_, ?_, rfl⟩
  · cases v with
    | vNull => simp [checkStateSerializable, badCount]
    | vUndefined => simp [checkStateSerializable, badCount]
    | vBool b => simpa [checkStateSerializable] using walkObject_length (JsValue.vBool b) ""
    | vNum n => simpa [checkStateSerializable] using walkObject_length (JsValue.vNum n) ""
    | vStr s => simpa [checkStateSerializable] using walkObject_length (JsValue.vStr s) ""
    | vFn => simpa [checkStateSerializable] using walkObject_length JsValue.vFn ""
    | vMap => simpa [checkStateSerializable] using walkObject_length JsValue.vMap ""
    | vSet => simpa [checkStateSerializable] using walkObject_length JsValue.vSet ""
    | vDate => simpa [checkStateSerializable] using walkObject_length JsValue.vDate ""
    | vRegExp => simpa [checkStateSerializable] using walkObject_length JsValue.vRegExp ""
    | vArr elems =>
      simpa [checkStateSerializable] using walkObject_length (JsValue.vArr elems) ""
    | vObj fields =>
      simpa [checkStateSerializable] using walkObject_length (JsValue.vObj fields) ""
  · intro hs
    cases v with
    | vNull => rfl
    | vUndefined => rfl
    | vBool b => simp [checkStateSerializable, walkObject_nil_of_safe _ "" hs]
    | vNum n => simp [checkStateSerializable, walkObject_nil_of_safe _ "" hs]
    | vStr s => simp [checkStateSerializable, walkObject_nil_of_safe _ "" hs]
    | vFn => simp [jsonSafe] at hs
    | vMap => simp [jsonSafe] at hs
    | vSet => simp [jsonSafe] at hs
    | vDate => simp [jsonSafe] at hs
    | vRegExp => simp [jsonSafe] at hs
    | vArr elems => simp [checkStateSerializable, walkObject_nil_of_safe _ "" hs]
    | vObj fields => simp [checkStateSerializable, walkObject_nil_of_safe _ "" hs]

theorem serialization_scan_amended_witness :
    ((checkStateSerializable
        (JsValue.vObj [("data", JsValue.vObj
          [("x", JsValue.vNum 1),
           ("y", JsValue.vArr [JsValue.vNum 1, JsValue.vNum 2, JsValue.vBool true])])])
        "init()").length = 0)
    ∧ checkStateSerializable
        (JsValue.vObj [("data", JsValue.vObj
          [("x", JsValue.vNum 1),
           ("y", JsValue.vArr [JsValue.vNum 1, JsValue.vNum 2, JsValue.vBool true])])])
        "init()" = [] := by
  have h := serialization_scan_amended
    (JsValue.vObj [("data", JsValue.vObj
      [("x", JsValue.vNum 1),
       ("y", JsValue.vArr [JsValue.vNum 1, JsValue.vNum 2, JsValue.vBool true])])])
    "init()"
  refine ⟨?_, h.2.1 rfl⟩
  rw [h.1]
  rfl

/-- C2 counterexample: on a successful start the orchestrator calls init
(the invocation flag is true) yet emits no sandbox advisory even though
the returned state holds a Map — whereas the same start run with the
engine wrapped by createSandboxedEngine would emit the advisory. The
orchestrator's engine reference is therefore not the sandboxed wrapper. -/
theorem sandbox_wiring_counterexample :
    (socketGameStartL (rawEngine c2Engine) c2Room "s1").1.2 = true
    ∧ (socketGameStartL (rawEngine c2Engine) c2Room "s1").2 = []
    ∧ (socketGameStartL (createSandboxedEngine c2Engine) c2Room "s1").2
        = ["[Sandbox] WARNING: init() — Map at state.data.m will become " ++
           "\x7b\x7d after JSON serialization. Use a plain object instead."] := by
  refine ⟨rfl, rfl, ?_⟩
  decide

/-- C2 amended: the orchestrator binds the raw loadEngine result, not the
sandboxed wrapper — createSandboxedEngine exists and is unit-tested but is
never invoked by createSocketServer, so every orchestrator-driven engine
call runs with an empty sandbox-advisory log and behaves exactly as the
raw engine does. -/
theorem sandbox_wiring_amended (e : GameEngine JsValue) (room : GameRoom JsValue)
    (socketId playerId action : String) :
    socketGameStartL (rawEngine e) room socketId
      = (socketGameStartT e room socketId, [])
    ∧ socketGameActionL (rawEngine e) room playerId action
      = (socketGameAction e room playerId action, []) := by
  constructor
  · simp only [socketGameStartL, socketGameStartT]
    cases hl : getPlayerBySocketId room socketId with
    | none => rfl
    | some player =>
      by_cases hh : player.isHost = false
      · simp [hh]
      · by_cases hr : allPlayersReady room = false
        · simp [hh, hr]
        · simp [hh, hr, startGameL, startGame, rawEngine]
  · simp only [socketGameActionL, socketGameAction]
    by_cases hp : room.phase = Phase.playing ∨ room.phase = Phase.ended
    · simp only [hp, if_pos]
      simp only [roomHandleActionL, roomHandleActionT]
      by_cases hpp : room.phase = Phase.playing
      · cases hs : room.state with
        | none => simp [hpp, hs]
        | some s => simp [hpp, hs, rawEngine]
      · simp [hpp]
    · simp [hp]

/-- C7 counterexample: with all eight pool names in use and a seat already
holding the custom name Player 10 (nine seats in total), the function
returns Player 10 — a name currently held by a seat, refuting the claim
that the fallback is always a name not in use. -/
theorem auto_name_counterexample :
    getNextAvailableName c7Room = "Player 10"
    ∧ (c7Room.players.map (fun p => p.nickname)).contains "Player 10" = true := by
  exact ⟨by decide, by decide⟩

/-- C7 amended: when some pool name is free the function returns the first
free pool name in pool order (so a freed pool name is reused before any
fallback), and that name is not in use; when every pool name is in use it
returns the template Player (seatCount + 1) without checking it against
the names in use — in the scenario of the claim (exactly the eight pool
names plus Player 9 taken, nine seats) that template is Player 10, which
happens to be fresh, but a seat already named Player (seatCount + 1)
collides. -/
theorem auto_name_amended (room : GameRoom Unit) :
    (¬(∀ m ∈ PLAYER_NAMES,
        (room.players.map (fun p => p.nickname)).contains m = true) →
      (room.players.map (fun p => p.nickname)).contains
          (getNextAvailableName room) = false
      ∧ ∃ pre post, PLAYER_NAMES = pre ++ getNextAvailableName room :: post
          ∧ ∀ m ∈ pre,
              (room.players.map (fun p => p.nickname)).contains m = true)
    ∧ ((∀ m ∈ PLAYER_NAMES,
        (room.players.map (fun p => p.nickname)).contains m = true) →
      getNextAvailableName room = "Player " ++ toString (room.players.length + 1)) := by
  have hunfold : getNextAvailableName room =
      match PLAYER_NAMES.find?
          (fun n => !((room.players.map (fun p => p.nickname)).contains n)) with
      | some n => n
      | none => "Player " ++ toString (room.players.length + 1) := rfl
  constructor
  · intro hnot
    cases hf : PLAYER_NAMES.find?
        (fun n => !((room.players.map (fun p => p.nickname)).contains n)) with
    | none =>
      exfalso
      apply hnot
      intro m hm
      have := List.find?_eq_none.mp hf m hm
      simpa using this
    | some n =>
      rw [hf] at hunfold
      obtain ⟨hp, pre, post, heq, hpre⟩ := List.find?_eq_some.mp hf
      rw [hunfold]
      refine ⟨by simpa using hp, pre, post, heq, ?_⟩
      intro m hm
      have := hpre m hm
      simpa using this
  · intro hall
    have hf : PLAYER_NAMES.find?
        (fun n => !((room.players.map (fun p => p.nickname)).contains n)) = none := by
      apply List.find?_eq_none.mpr
      intro m hm
      rw [hall m hm]
      simp
    rw [hf] at hunfold
    exact hunfold

theorem auto_name_amended_witness :
    (c7WitnessRoom.players.map (fun p => p.nickname)).contains
        (getNextAvailableName c7WitnessRoom) = false
    ∧ getNextAvailableName c7WitnessRoom = "Carol" := by
  have h := (auto_name_amended c7WitnessRoom).1 (by decide)
  exact ⟨h.1, by decide⟩

set_option maxRecDepth 4000 in
/-- C8 counterexample: with secret 50 the very first midpoint guess hits,
the game ends, and getResult marks TWO of the three seats with isWinner =
true (the guesser is the loser in this game), refuting the claim that
exactly one seat is marked isWinner. -/
theorem number_guess_counterexample :
    ngIsGameOver (runBinary 8 (simStart 3 50)).state = true
    ∧ ((ngGetResult (runBinary 8 (simStart 3 50)).state).rankings.filter
        (fun r => r.isWinner)).length = 2 := by
  exact ⟨by decide, by decide⟩

set_option maxRecDepth 100000 in
theorem number_guess_all_secrets :
    ∀ i : Fin 100,
      ngIsGameOver (runBinary 8 (simStart 3 ((i : Nat) + 1 : Int))).state = true
      ∧ ((ngGetResult (runBinary 8 (simStart 3 ((i : Nat) + 1 : Int))).state).rankings.filter
          (fun r => !r.isWinner)).length = 1
      ∧ ((ngGetResult (runBinary 8 (simStart 3 ((i : Nat) + 1 : Int))).state).rankings.filter
          (fun r => r.isWinner)).length = 2 := by
  decide

/-- C8 amended: for every secret in [1, 100] the binary-search strategy
from seat 0 terminates within 8 GUESS actions with isGameOver true, and
getResult then marks exactly one of the three seats with isWinner = false
— the seat whose exact guess ended the game loses — while the other two
seats have isWinner = true. -/
theorem number_guess_amended (secretNumber : Int)
    (h1 : 1 ≤ secretNumber) (h2 : secretNumber ≤ 100) :
    ngIsGameOver (runBinary 8 (simStart 3 secretNumber)).state = true
    ∧ ((ngGetResult (runBinary 8 (simStart 3 secretNumber)).state).rankings.filter
        (fun r => !r.isWinner)).length = 1
    ∧ ((ngGetResult (runBinary 8 (simStart 3 secretNumber)).state).rankings.filter
        (fun r => r.isWinner)).length = 2 := by
  have hlt : (secretNumber - 1).toNat < 100 := by omega
  have hn : secretNumber = (((secretNumber - 1).toNat : Nat) : Int) + 1 := by omega
  have h := number_guess_all_secrets ⟨(secretNumber - 1).toNat, hlt⟩
  rw [hn]
  exact h

theorem number_guess_amended_witness :
    ngIsGameOver (runBinary 8 (simStart 3 73)).state = true
    ∧ ((ngGetResult (runBinary 8 (simStart 3 73)).state).rankings.filter
        (fun r => !r.isWinner)).length = 1 := by
  have h := number_guess_amended 73 (by norm_num) (by norm_num)
  exact ⟨h.1, h.2.1⟩
